import Mathlib

/-!
Shallow embedding of the barcode-scanner system (multi_scanner.py and
database_integration_http.py) and proofs about its duplicate filtering,
line framing, reconnection loop, and remote-synchronization logic.

Payload strings read from devices are modelled as `List Char`; machine time
is modelled as `Int` seconds; timestamps that the code only stores and
forwards (ISO strings) are opaque `String`s.  HTTP effects are modelled by
an explicit store of remote rows plus a trace of issued requests, with the
response of each request supplied by an environment.
-/

namespace Bar

/-- A JSON field value as sent in request bodies and stored in remote rows. -/
inductive Value where
  | vb : Bool → Value
  | vs : String → Value
  | vcs : List Char → Value
  | vnull : Value
deriving DecidableEq, Repr

/-- A row of the remote `barcode_scans` table: its primary key `id`, the
`barcode_data` and `device_port` columns, and any further columns that were
set (`status_i_*`, `scan_time`, `status`). -/
structure RemoteRecord where
  rid : Nat
  barcodeData : List Char
  devicePort : String
  fields : List (String × Value)
deriving DecidableEq, Repr

/-- One JSON line of a `scans_<date>.jsonl` local backlog file, as written by
`DatabaseManagerHTTP._save_to_local`. -/
structure LocalRecord where
  barcodeData : List Char
  scanTime : String
  devicePort : String
  status : Option String
  synced : Bool
deriving DecidableEq, Repr

/-- An HTTP request issued against the Supabase REST endpoint. -/
inductive Req where
  | getReq : List Char → Req
  | postReq : List (String × Value) → Req
  | patchReq : Nat → List (String × Value) → Req
deriving DecidableEq, Repr

/-- Outcome of one HTTP request: a response status code, or a raised
network exception. -/
inductive HttpResult where
  | code : Nat → HttpResult
  | exn : HttpResult
deriving DecidableEq, Repr

/-- Responses the network gives to the (at most four) requests a single
`upload_scan_data` call can issue. -/
structure NetEnv where
  getRes : HttpResult
  postRes : HttpResult
  basicPostRes : HttpResult
  patchRes : HttpResult
deriving DecidableEq, Repr

/-- The configuration flags read from the environment in
`DatabaseManagerHTTP.__init__` (`apiConfigured` models `self.api_url` being
set). -/
structure DBConfig where
  apiConfigured : Bool
  databaseEnabled : Bool
  localBackupEnabled : Bool
  autoSyncEnabled : Bool
deriving DecidableEq, Repr

/-- Observable state of the database manager: the remote table contents, the
next fresh row id, the local backlog file contents, and the trace of HTTP
requests issued so far. -/
structure DBState where
  store : List RemoteRecord
  nextId : Nat
  localLog : List LocalRecord
  trace : List Req
deriving DecidableEq, Repr

/-- `DatabaseManagerHTTP._parse_barcode_status`: strip a recognized
two-character status prefix and return the status label, else no status. -/
def parseBarcodeStatus (barcodeData : List Char) : List Char × Option String :=
  match barcodeData with
  | '0' :: '@' :: rest => (rest, some "已排产")
  | '1' :: '@' :: rest => (rest, some "已切割")
  | '2' :: '@' :: rest => (rest, some "已清角")
  | '3' :: '@' :: rest => (rest, some "已入库")
  | '4' :: '@' :: rest => (rest, some "部分出库")
  | '5' :: '@' :: rest => (rest, some "已出库")
  | _ => (barcodeData, none)

/-- The `status_mapping` dict of `_create_new_record` and
`_update_existing_record`: status label to (boolean column, time column). -/
def statusMapping (status : String) : Option (String × String) :=
  if status = "已排产" then some ("status_1_scheduled", "status_1_time")
  else if status = "已切割" then some ("status_2_cut", "status_2_time")
  else if status = "已清角" then some ("status_3_cleaned", "status_3_time")
  else if status = "已入库" then some ("status_4_stored", "status_4_time")
  else if status = "部分出库" then some ("status_5_partial_out", "status_5_time")
  else if status = "已出库" then some ("status_6_shipped", "status_6_time")
  else none

/-- `DatabaseManagerHTTP._get_status_prefix` (as characters). -/
def statusPrefixChars (status : String) : List Char :=
  if status = "已排产" then ['0']
  else if status = "已切割" then ['1']
  else if status = "已清角" then ['2']
  else if status = "已入库" then ['3']
  else if status = "部分出库" then ['4']
  else if status = "已出库" then ['5']
  else []

/-- The status columns a request body carries for a given status label. -/
def statusFieldsFor (status : String) (now : String) : List (String × Value) :=
  match statusMapping status with
  | some (sf, tf) => [(sf, Value.vb true), (tf, Value.vs now)]
  | none => []

/-- The rows of the remote table whose `barcode_data` column equals `bd`
(the `?barcode_data=eq.<value>` filter). -/
def recordsFor (store : List RemoteRecord) (bd : List Char) : List RemoteRecord :=
  store.filter (fun r => r.barcodeData == bd)

/-- `DatabaseManagerHTTP._save_to_local`: append one JSON line with the
parsed barcode, status and `synced: False` to the day's backlog file. -/
def saveToLocal (cfg : DBConfig) (now : String) (s : DBState)
    (barcodeData : List Char) (devicePort : String) : Bool × DBState :=
  if cfg.localBackupEnabled = false then (false, s)
  else
    let p := parseBarcodeStatus barcodeData
    (true, { s with localLog := s.localLog ++
      [{ barcodeData := p.1, scanTime := now, devicePort := devicePort,
         status := p.2, synced := false }] })

/-- `DatabaseManagerHTTP._get_existing_record`: GET by exact barcode; the
first returned row on HTTP 200, `None` on any other status or exception. -/
def getExistingRecord (env : NetEnv) (s : DBState) (bd : List Char) :
    Option RemoteRecord × DBState :=
  let s1 := { s with trace := s.trace ++ [Req.getReq bd] }
  if env.getRes = HttpResult.code 200 then ((recordsFor s.store bd).head?, s1)
  else (none, s1)

/-- The row a successful `_create_new_record` POST inserts. -/
def newRecordOf (rid : Nat) (bd : List Char) (port : String) (st : String)
    (now : String) : RemoteRecord :=
  { rid := rid, barcodeData := bd, devicePort := port,
    fields := statusFieldsFor st now }

/-- `DatabaseManagerHTTP._create_basic_record`: POST only the two base
fields; on success also write the prefixed backup line locally. -/
def createBasicRecord (cfg : DBConfig) (env : NetEnv) (now : String)
    (s : DBState) (bd : List Char) (st : String) (port : String) :
    Bool × DBState :=
  let s1 := { s with trace := s.trace ++
    [Req.postReq [("barcode_data", Value.vcs bd), ("device_port", Value.vs port)]] }
  if env.basicPostRes = HttpResult.code 200 ∨ env.basicPostRes = HttpResult.code 201 then
    let s2 := { s1 with
      store := s1.store ++ [{ rid := s1.nextId, barcodeData := bd,
                              devicePort := port, fields := [] }],
      nextId := s1.nextId + 1 }
    let s3 := if cfg.localBackupEnabled then
        (saveToLocal cfg now s2 (statusPrefixChars st ++ '@' :: bd) port).2
      else s2
    (true, s3)
  else (false, s1)

/-- `DatabaseManagerHTTP._create_new_record`: POST the base fields plus the
one status/time pair; on success insert the row and write the backup line;
on HTTP 400 retry with only the base fields; on any other status or
exception return failure with no local write. -/
def createNewRecord (cfg : DBConfig) (env : NetEnv) (now : String)
    (s : DBState) (bd : List Char) (st : String) (port : String) :
    Bool × DBState :=
  let scanData := [("barcode_data", Value.vcs bd), ("device_port", Value.vs port)]
    ++ statusFieldsFor st now
  let s1 := { s with trace := s.trace ++ [Req.postReq scanData] }
  if env.postRes = HttpResult.code 200 ∨ env.postRes = HttpResult.code 201 then
    let s2 := { s1 with
      store := s1.store ++ [newRecordOf s1.nextId bd port st now],
      nextId := s1.nextId + 1 }
    let s3 := if cfg.localBackupEnabled then
        (saveToLocal cfg now s2 (statusPrefixChars st ++ '@' :: bd) port).2
      else s2
    (true, s3)
  else if env.postRes = HttpResult.code 400 then
    createBasicRecord cfg env now s1 bd st port
  else (false, s1)

/-- Overwrite-or-append one key of a row's extra columns, as the remote
PATCH merge does. -/
def setField (fields : List (String × Value)) (key : String) (v : Value) :
    List (String × Value) :=
  if fields.any (fun kv => kv.1 == key) then
    fields.map (fun kv => if kv.1 == key then (key, v) else kv)
  else fields ++ [(key, v)]

/-- Effect of the PATCH body of `_update_existing_record` on one row: set
`device_port` and merge the one status/time pair. -/
def applyUpdate (r : RemoteRecord) (port : String) (st : String)
    (now : String) : RemoteRecord :=
  { r with devicePort := port,
           fields := (statusFieldsFor st now).foldl
             (fun fs kv => setField fs kv.1 kv.2) r.fields }

/-- `DatabaseManagerHTTP._update_existing_record`: PATCH the row with the
matching id; on 200/204 apply the update and write the backup line. -/
def updateExistingRecord (cfg : DBConfig) (env : NetEnv) (now : String)
    (s : DBState) (ex : RemoteRecord) (st : String) (port : String) :
    Bool × DBState :=
  let updateData := ("device_port", Value.vs port) :: statusFieldsFor st now
  let s1 := { s with trace := s.trace ++ [Req.patchReq ex.rid updateData] }
  if env.patchRes = HttpResult.code 200 ∨ env.patchRes = HttpResult.code 204 then
    let newStore := s1.store.map
      (fun r => if r.rid = ex.rid then applyUpdate r port st now else r)
    let s2 := { s1 with store := newStore }
    let s3 := if cfg.localBackupEnabled then
        (saveToLocal cfg now s2 (statusPrefixChars st ++ '@' :: ex.barcodeData) port).2
      else s2
    (true, s3)
  else (false, s1)

/-- `DatabaseManagerHTTP.upload_scan_data`: offline mode saves locally;
an unrecognized status is only warned about; otherwise look up the barcode
and update the existing row or create a new one. -/
def uploadScanData (cfg : DBConfig) (env : NetEnv) (now : String)
    (s : DBState) (barcodeData : List Char) (devicePort : String) :
    Bool × DBState :=
  if ¬cfg.apiConfigured ∨ ¬cfg.databaseEnabled then
    if cfg.localBackupEnabled then saveToLocal cfg now s barcodeData devicePort
    else (false, s)
  else
    match parseBarcodeStatus barcodeData with
    | (_, none) => (false, s)
    | (clean, some st) =>
      match getExistingRecord env s clean with
      | (some r, s1) => updateExistingRecord cfg env now s1 r st devicePort
      | (none, s1) => createNewRecord cfg env now s1 clean st devicePort

/-- The request body `_sync_jsonl_file` POSTs for one backlog record. -/
def mkSyncPayload (r : LocalRecord) : List (String × Value) :=
  [("barcode_data", Value.vcs r.barcodeData),
   ("device_port", Value.vs r.devicePort),
   ("scan_time", Value.vs r.scanTime),
   ("status", match r.status with | some st => Value.vs st | none => Value.vnull)]

/-- The row a successful backlog POST inserts. -/
def syncPostRecord (r : LocalRecord) (rid : Nat) : RemoteRecord :=
  { rid := rid, barcodeData := r.barcodeData, devicePort := r.devicePort,
    fields := [("scan_time", Value.vs r.scanTime),
               ("status", match r.status with
                          | some st => Value.vs st
                          | none => Value.vnull)] }

/-- Accumulator of the `_sync_jsonl_file` loop: current state, index of the
next POST (to look up its response), the `uploaded_count`, and the
`unsynced_lines` list being rebuilt. -/
structure SyncAcc where
  st : DBState
  reqIx : Nat
  uploaded : Nat
  outLog : List LocalRecord
deriving Repr

/-- One iteration of the `_sync_jsonl_file` loop: already-synced lines are
kept as they are; an unsynced line is POSTed directly, and on success kept
with `synced` flipped to true, otherwise kept unchanged. -/
def syncStep (post : Nat → HttpResult) (acc : SyncAcc) (r : LocalRecord) :
    SyncAcc :=
  if r.synced then { acc with outLog := acc.outLog ++ [r] }
  else
    let s1 := { acc.st with trace := acc.st.trace ++ [Req.postReq (mkSyncPayload r)] }
    if post acc.reqIx = HttpResult.code 200 ∨ post acc.reqIx = HttpResult.code 201 then
      { st := { s1 with store := s1.store ++ [syncPostRecord r s1.nextId],
                        nextId := s1.nextId + 1 },
        reqIx := acc.reqIx + 1, uploaded := acc.uploaded + 1,
        outLog := acc.outLog ++ [{ r with synced := true }] }
    else
      { st := s1, reqIx := acc.reqIx + 1, uploaded := acc.uploaded,
        outLog := acc.outLog ++ [r] }

/-- `DatabaseManagerHTTP._sync_jsonl_file` over one backlog file: process
every line and rewrite the file with the rebuilt line list; returns the
number of uploads that succeeded. -/
def syncJsonlFile (post : Nat → HttpResult) (s : DBState) : DBState × Nat :=
  let acc0 : SyncAcc :=
    { st := { s with localLog := [] }, reqIx := 0, uploaded := 0, outLog := [] }
  let acc := s.localLog.foldl (syncStep post) acc0
  ({ acc.st with localLog := acc.outLog }, acc.uploaded)

/-- `DatabaseManagerHTTP.sync_local_data`: gated by the configuration
flags, then sync the backlog file. -/
def syncLocalData (cfg : DBConfig) (post : Nat → HttpResult) (s : DBState) :
    DBState × Nat :=
  if ¬cfg.apiConfigured ∨ ¬cfg.databaseEnabled then (s, 0)
  else if ¬cfg.autoSyncEnabled then (s, 0)
  else syncJsonlFile post s

/-- The default configuration (`DATABASE_ENABLED`, `LOCAL_BACKUP_ENABLED`
and `AUTO_SYNC_ENABLED` all default to true, with the API configured). -/
def cfgDefault : DBConfig :=
  { apiConfigured := true, databaseEnabled := true,
    localBackupEnabled := true, autoSyncEnabled := true }

/-- An environment in which every request succeeds. -/
def envAllOk : NetEnv :=
  { getRes := HttpResult.code 200, postRes := HttpResult.code 201,
    basicPostRes := HttpResult.code 201, patchRes := HttpResult.code 204 }

/-- An environment in which the lookup succeeds but every write is
rejected with HTTP 500. -/
def env500 : NetEnv :=
  { getRes := HttpResult.code 200, postRes := HttpResult.code 500,
    basicPostRes := HttpResult.code 500, patchRes := HttpResult.code 500 }

/-- An environment in which every write raises a network exception. -/
def envExn : NetEnv :=
  { getRes := HttpResult.code 200, postRes := HttpResult.exn,
    basicPostRes := HttpResult.exn, patchRes := HttpResult.exn }

/-- An environment in which the create POST is rejected with HTTP 400 and
the basic-fields retry then fails with HTTP 500. -/
def env400 : NetEnv :=
  { getRes := HttpResult.code 200, postRes := HttpResult.code 400,
    basicPostRes := HttpResult.code 500, patchRes := HttpResult.code 500 }

/-- The empty initial database state. -/
def emptyDB : DBState := { store := [], nextId := 1, localLog := [], trace := [] }

/-- `ScannerDevice.duplicate_window`: seconds within which a repeated scan
of the same payload on the same device is filtered. -/
def duplicateWindowSecs : Int := 5

/-- `ScannerDevice.is_duplicate_scan`: purge window entries older than the
window, report a duplicate if the payload is still present (leaving the
window as purged), else record the payload at the current time. -/
def isDuplicateScan (recentScans : List (List Char × Int)) (currentTime : Int)
    (data : List Char) : Bool × List (List Char × Int) :=
  let purged := recentScans.filter
    (fun e => !decide (currentTime - e.2 > duplicateWindowSecs))
  if purged.any (fun e => e.1 == data) then (true, purged)
  else (false, purged ++ [(data, currentTime)])

/-- The per-device counters touched by `process_scanned_data`. -/
structure DeviceState where
  recentScans : List (List Char × Int)
  scanCount : Nat
  lastScanTime : Option Int
deriving DecidableEq, Repr

/-- How `process_scanned_data` classified one scan. -/
inductive ScanOutcome where
  | windowDup
  | dailyDup
  | newScan
deriving DecidableEq, Repr

/-- Manager-wide state touched by `process_scanned_data`: the persisted
daily set, the total counter, and the uploads handed to the database
module. -/
structure AppState where
  todayScanned : List (List Char)
  totalScanCount : Nat
  uploads : List (List Char × String)
deriving DecidableEq, Repr

/-- `MultiScannerApp.process_scanned_data`: window check first, then the
daily set (which still bumps the counters), else accept, record, and hand
the scan to the database uploader. -/
def processScannedData (dbAvailable : Bool) (app : AppState) (dev : DeviceState)
    (port : String) (data : List Char) (now : Int) :
    ScanOutcome × AppState × DeviceState :=
  let r := isDuplicateScan dev.recentScans now data
  let dev1 := { dev with recentScans := r.2 }
  if r.1 then (ScanOutcome.windowDup, app, dev1)
  else if data ∈ app.todayScanned then
    (ScanOutcome.dailyDup,
     { app with totalScanCount := app.totalScanCount + 1 },
     { dev1 with scanCount := dev1.scanCount + 1, lastScanTime := some now })
  else
    let newUploads := if dbAvailable then app.uploads ++ [(data, port)] else app.uploads
    (ScanOutcome.newScan,
     { app with todayScanned := app.todayScanned ++ [data],
                totalScanCount := app.totalScanCount + 1,
                uploads := newUploads },
     { dev1 with scanCount := dev1.scanCount + 1, lastScanTime := some now })

/-- Acceptance flags produced by feeding a same-payload scan sequence with
the given timestamps through `is_duplicate_scan`, threading the window. -/
def runDedup (data : List Char) (w : List (List Char × Int)) :
    List Int → List Bool
  | [] => []
  | t :: ts =>
    let r := isDuplicateScan w t data
    (!r.1) :: runDedup data r.2 ts

/-- Reference acceptance policy: a scan is accepted exactly when no
previously accepted scan of the same payload lies within the 5-second
window; the state is the time of the last accepted scan. -/
def acceptSpec : Option Int → List Int → List Bool
  | _, [] => []
  | none, t :: ts => true :: acceptSpec (some t) ts
  | some l, t :: ts =>
    if t - l ≤ duplicateWindowSecs then false :: acceptSpec (some l) ts
    else true :: acceptSpec (some t) ts

/-- Does the first list match the front of the second? -/
def matchesAt : List Char → List Char → Bool
  | [], _ => true
  | _ :: _, [] => false
  | p :: ps, c :: cs => p == c && matchesAt ps cs

/-- Python `str.split(sep, 1)` when `sep` occurs: the text before the first
occurrence of `pat` and the text after it. -/
def splitOnceAux (pat : List Char) : List Char → Option (List Char × List Char)
  | [] => none
  | c :: rest =>
    if matchesAt pat (c :: rest) then some ([], (c :: rest).drop pat.length)
    else
      match splitOnceAux pat rest with
      | some (pre, post) => some (c :: pre, post)
      | none => none

/-- The separator sequences of `scan_worker`, in the order tested. -/
def crlfSep : List Char := ['\r', '\n']

/-- The lone line-feed separator. -/
def lfSep : List Char := ['\n']

/-- The lone carriage-return separator. -/
def crSep : List Char := ['\r']

/-- One pass of the `scan_worker` if/elif chain: split on `\r\n` if it
occurs anywhere in the buffer, else on the first `\n`, else on the first
`\r`. -/
def takeLine (buffer : List Char) : Option (List Char × List Char) :=
  match splitOnceAux crlfSep buffer with
  | some p => some p
  | none =>
    match splitOnceAux lfSep buffer with
    | some p => some p
    | none => splitOnceAux crSep buffer

/-- The whitespace characters removed by Python `str.strip()`. -/
def isPySpace (c : Char) : Bool :=
  c == ' ' || c == '\t' || c == '\n' || c == '\r' ||
  c == Char.ofNat 11 || c == Char.ofNat 12

/-- Python `str.strip()`: drop whitespace from both ends. -/
def pyStrip (l : List Char) : List Char :=
  ((l.dropWhile isPySpace).reverse.dropWhile isPySpace).reverse

/-- Fuelled version of the `scan_worker` framing loop; the fuel only
bounds the number of iterations and `buffer.length` is always enough. -/
def processBufferFuel : Nat → List Char → List (List Char) × List Char
  | 0, buffer => ([], buffer)
  | fuel + 1, buffer =>
    if ('\n' ∈ buffer) ∨ ('\r' ∈ buffer) then
      match takeLine buffer with
      | some (line, rest) =>
        let r := processBufferFuel fuel rest
        ((if pyStrip line = [] then r.1 else pyStrip line :: r.1), r.2)
      | none => ([], buffer)
    else ([], buffer)

/-- The `scan_worker` framing loop: extract every complete line from the
accumulated buffer (stripped, dropping empties) and keep the trailing
partial line. -/
def processBuffer (buffer : List Char) : List (List Char) × List Char :=
  processBufferFuel buffer.length buffer

/-- The position of the first occurrence of any of the three separators in
the buffer (every separator starts with a carriage return or line feed).
Stated from the claim that framing splits at the first occurrence of any
separator, for comparison with `takeLine`. -/
def firstSepPos : List Char → Option Nat
  | [] => none
  | c :: rest =>
    if c = '\n' ∨ c = '\r' then some 0
    else (firstSepPos rest).map (· + 1)

/-- Reconnection-relevant fields of a `ScannerDevice`. -/
structure ReconnDevice where
  reconnectAttempts : Nat
  maxReconnectAttempts : Nat
  lastErrorTime : Option Int
  isConnected : Bool
deriving DecidableEq, Repr

/-- How one invocation of `auto_reconnect_device` ended. -/
inductive ReconnResult where
  | rateLimited
  | capExceeded
  | reconnected
  | retryScheduled
  | failedNoRetry
deriving DecidableEq, Repr

/-- The rate-limit guard at the top of `auto_reconnect_device`. -/
def rateLimitHit (lastErrorTime : Option Int) (now : Int) : Bool :=
  match lastErrorTime with
  | some t => if now - t < 5 then true else false
  | none => false

/-- The attempt-counter reset performed by `force_disconnect_device`
(which `auto_reconnect_device` calls before reopening the port). -/
def forceDisconnectReset (d : ReconnDevice) : ReconnDevice :=
  { d with isConnected := false, reconnectAttempts := 0 }

/-- `MultiScannerApp.auto_reconnect_device`: rate limit, count the attempt,
stop if over the cap, otherwise force-disconnect (which resets the
counter), try to reopen, and on failure spawn another attempt while the
counter is below the cap. -/
def autoReconnectDevice (d : ReconnDevice) (now : Int) (openOk : Bool) :
    ReconnDevice × ReconnResult :=
  if rateLimitHit d.lastErrorTime now then (d, ReconnResult.rateLimited)
  else
    let d1 := { d with lastErrorTime := some now,
                       reconnectAttempts := d.reconnectAttempts + 1 }
    if d1.reconnectAttempts > d1.maxReconnectAttempts then
      (d1, ReconnResult.capExceeded)
    else
      let d2 := forceDisconnectReset d1
      if openOk then
        ({ d2 with isConnected := true, reconnectAttempts := 0 },
         ReconnResult.reconnected)
      else if d2.reconnectAttempts < d2.maxReconnectAttempts then
        (d2, ReconnResult.retryScheduled)
      else (d2, ReconnResult.failedNoRetry)

/-- A freshly added device that has just hit its first fatal error. -/
def initialReconnDevice : ReconnDevice :=
  { reconnectAttempts := 0, maxReconnectAttempts := 3,
    lastErrorTime := none, isConnected := false }

/-- The reconnection loop run against a port whose reopen always fails,
with consecutive invocations spaced 10 seconds apart. -/
def reconnectRun : Nat → ReconnDevice × ReconnResult
  | 0 => autoReconnectDevice initialReconnDevice 0 false
  | n + 1 => autoReconnectDevice (reconnectRun n).1 (10 * ((n : Int) + 1)) false

/-- Look up one column of a row's extra fields by name. -/
def lookupField (fields : List (String × Value)) (key : String) : Option Value :=
  (fields.find? (fun kv => kv.1 == key)).map (fun kv => kv.2)

/-- A device window holding at most the one entry for `data`: the shape the
window has in a run of same-payload scans. -/
def optWindow (data : List Char) : Option Int → List (List Char × Int)
  | none => []
  | some l => [(data, l)]

/-- The status digits in prefix order. -/
def statusDigitN : Nat → Char
  | 0 => '0'
  | 1 => '1'
  | 2 => '2'
  | 3 => '3'
  | 4 => '4'
  | _ => '5'

/-- The status labels in prefix order. -/
def statusLabelN : Nat → String
  | 0 => "已排产"
  | 1 => "已切割"
  | 2 => "已清角"
  | 3 => "已入库"
  | 4 => "部分出库"
  | _ => "已出库"

/-- The remote status/time column pairs in prefix order; the column names
carry the stage names scheduled, cut, cleaned, stored, partial_out,
shipped. -/
def statusFieldN : Nat → String × String
  | 0 => ("status_1_scheduled", "status_1_time")
  | 1 => ("status_2_cut", "status_2_time")
  | 2 => ("status_3_cleaned", "status_3_time")
  | 3 => ("status_4_stored", "status_4_time")
  | 4 => ("status_5_partial_out", "status_5_time")
  | _ => ("status_6_shipped", "status_6_time")

/-- A network that accepts every request with HTTP 201. -/
def postOk : Nat → HttpResult := fun _ => HttpResult.code 201

/-- A network that rejects every request with HTTP 500. -/
def postFail : Nat → HttpResult := fun _ => HttpResult.code 500

/-- The line list a sync pass rewrites a file with, stated directly for
comparison with the `_sync_jsonl_file` loop: `k` is the index of the next
POST to be issued; a line already marked synced is kept as it is and issues
no request; an unsynced line is rewritten with synced=true exactly when its
own POST (the k-th) is confirmed with HTTP 200 or 201, and is kept
unchanged, synced still false, when that POST is not confirmed. -/
def syncSpecLog (post : Nat → HttpResult) : Nat → List LocalRecord → List LocalRecord
  | _, [] => []
  | k, r :: rs =>
    if r.synced then r :: syncSpecLog post k rs
    else if post k = HttpResult.code 200 ∨ post k = HttpResult.code 201 then
      { r with synced := true } :: syncSpecLog post (k + 1) rs
    else r :: syncSpecLog post (k + 1) rs

/-- A backlog line for barcode LOT-1 that has not been confirmed yet. -/
def sampleEntry : LocalRecord :=
  { barcodeData := "LOT-1".toList, scanTime := "T0", devicePort := "COM3",
    status := some "已切割", synced := false }

/-- A state whose remote store already holds a row for LOT-1 (from an
earlier successful upload) and whose backlog still holds the unsynced
backup line for the same event. -/
def c1State : DBState :=
  { store := [{ rid := 1, barcodeData := "LOT-1".toList, devicePort := "COM3",
                fields := [("status_2_cut", Value.vb true),
                           ("status_2_time", Value.vs "T0")] }],
    nextId := 2, localLog := [sampleEntry], trace := [] }

/-- A manager state whose daily set already contains barcode B. -/
def c2App : AppState :=
  { todayScanned := ["B".toList], totalScanCount := 7, uploads := [] }

/-- A device that scanned B at time 0, so B is still in its 5-second
window at time 2. -/
def c2Dev : DeviceState :=
  { recentScans := [("B".toList, 0)], scanCount := 3, lastScanTime := some 0 }

/-- A device whose 5-second window is empty. -/
def c2DevFresh : DeviceState :=
  { recentScans := [], scanCount := 3, lastScanTime := none }

/-- State after uploading the line 2@LOT-55 from COM3 into an empty store
with every request succeeding. -/
def c5s1 : DBState :=
  (uploadScanData cfgDefault envAllOk "T1" emptyDB ("2@LOT-55".toList) "COM3").2

/-- State after then uploading the line 4@LOT-55 from COM3. -/
def c5s2 : DBState :=
  (uploadScanData cfgDefault envAllOk "T2" c5s1 ("4@LOT-55".toList) "COM3").2

/-- A state whose backlog holds one unconfirmed line and whose remote
store is empty. -/
def c9State : DBState :=
  { store := [], nextId := 1, localLog := [sampleEntry], trace := [] }

/-- A state whose backlog holds only an already-confirmed line. -/
def c9AllSynced : DBState :=
  { store := [], nextId := 1,
    localLog := [{ sampleEntry with synced := true }], trace := [] }

theorem runDedup_optWindow (data : List Char) (ts : List Int) :
    ∀ w : Option Int, runDedup data (optWindow data w) ts = acceptSpec w ts := by
  induction ts with
  | nil => intro w; cases w <;> rfl
  | cons t ts ih =>
    intro w
    cases w with
    | none =>
      have h1 : isDuplicateScan (optWindow data none) t data = (false, [(data, t)]) := by
        simp [isDuplicateScan, optWindow]
      simp only [runDedup, h1, acceptSpec, Bool.not_false]
      exact congrArg (true :: ·) (ih (some t))
    | some l =>
      by_cases h : t - l ≤ duplicateWindowSecs
      · have hd : decide (t - l > duplicateWindowSecs) = false :=
          decide_eq_false (not_lt.mpr h)
        have h1 : isDuplicateScan (optWindow data (some l)) t data =
            (true, [(data, l)]) := by
          simp [isDuplicateScan, optWindow, hd]
        simp only [runDedup, h1, acceptSpec, Bool.not_true, if_pos h]
        exact congrArg (false :: ·) (ih (some l))
      · have hd : decide (t - l > duplicateWindowSecs) = true :=
          decide_eq_true (lt_of_not_le h)
        have h1 : isDuplicateScan (optWindow data (some l)) t data =
            (false, [(data, t)]) := by
          simp [isDuplicateScan, optWindow, hd]
        simp only [runDedup, h1, acceptSpec, Bool.not_false, if_neg h]
        exact congrArg (true :: ·) (ih (some t))

/-- Claim C3: `is_duplicate_scan` first purges the device window of entries
older than 5 seconds, then reports a duplicate exactly when the payload is
still present in the purged window, leaving the window unchanged in that
case (no double-count), and otherwise records the payload at the current
time and accepts it; consequently, in a run of same-payload scans starting
from an empty window, a scan is accepted exactly when no previously
accepted scan lies within the last 5 seconds. -/
theorem C3_window_dedup :
    (∀ (recent : List (List Char × Int)) (now : Int) (d : List Char),
      (isDuplicateScan recent now d).1 =
          (recent.filter (fun e => !decide (now - e.2 > duplicateWindowSecs))).any
            (fun e => e.1 == d)
        ∧ ((isDuplicateScan recent now d).1 = true →
            (isDuplicateScan recent now d).2 =
              recent.filter (fun e => !decide (now - e.2 > duplicateWindowSecs)))
        ∧ ((isDuplicateScan recent now d).1 = false →
            (isDuplicateScan recent now d).2 =
              recent.filter (fun e => !decide (now - e.2 > duplicateWindowSecs))
                ++ [(d, now)]))
  ∧ (∀ (d : List Char) (ts : List Int), runDedup d [] ts = acceptSpec none ts) := by
  constructor
  · intro recent now d
    refine ⟨?_, ?_, ?_⟩ <;>
      cases hb : (recent.filter
          (fun e => !decide (now - e.2 > duplicateWindowSecs))).any
            (fun e => e.1 == d) <;>
      simp [isDuplicateScan, hb]
  · intro d ts
    exact runDedup_optWindow d ts none

/-- Witness for C3 at concrete values: a second scan 2 seconds after an
accepted one is rejected without refreshing the window, and the scan
pattern at times 0, 2, 4, 10 is accepted, rejected, rejected, accepted. -/
theorem C3_witness :
    (isDuplicateScan [("B".toList, 0)] 2 ("B".toList)).1 = true ∧
    (isDuplicateScan [("B".toList, 0)] 2 ("B".toList)).2 = [("B".toList, 0)] ∧
    runDedup ("B".toList) [] [0, 2, 4, 10] = acceptSpec none [0, 2, 4, 10] ∧
    acceptSpec none [0, 2, 4, 10] = [true, false, false, true] := by
  refine ⟨by decide, ?_, C3_window_dedup.2 ("B".toList) [0, 2, 4, 10], by decide⟩
  have h := ((C3_window_dedup.1 [("B".toList, 0)] 2 ("B".toList)).2.1) (by decide)
  simpa using h

/-- Claim C2 (amended): a scan of a barcode already in the daily set that
is not suppressed by the device's 5-second window is classified as a daily
duplicate: the daily set, the upload list and the backlog are untouched,
while the device scan counter, its last-scan time and the total counter are
still bumped. -/
theorem C2_daily_duplicate_counts (dbA : Bool) (app : AppState)
    (dev : DeviceState) (port : String) (data : List Char) (now : Int)
    (hwin : (isDuplicateScan dev.recentScans now data).1 = false)
    (hday : data ∈ app.todayScanned) :
    processScannedData dbA app dev port data now =
      (ScanOutcome.dailyDup,
       { app with totalScanCount := app.totalScanCount + 1 },
       { dev with recentScans := (isDuplicateScan dev.recentScans now data).2,
                  scanCount := dev.scanCount + 1,
                  lastScanTime := some now }) := by
  simp [processScannedData, hwin, hday]

/-- Witness for C2 (amended): barcode B is already in the daily set and not
in the fresh device's window, so the scan is a daily duplicate and the
counters advance. -/
theorem C2_witness :
    (isDuplicateScan c2DevFresh.recentScans 2 ("B".toList)).1 = false ∧
    ("B".toList) ∈ c2App.todayScanned ∧
    processScannedData true c2App c2DevFresh "COM3" ("B".toList) 2 =
      (ScanOutcome.dailyDup,
       { c2App with totalScanCount := c2App.totalScanCount + 1 },
       { c2DevFresh with
           recentScans := (isDuplicateScan c2DevFresh.recentScans 2 ("B".toList)).2,
           scanCount := c2DevFresh.scanCount + 1,
           lastScanTime := some 2 }) :=
  ⟨by decide, by decide,
    C2_daily_duplicate_counts true c2App c2DevFresh "COM3" ("B".toList) 2
      (by decide) (by decide)⟩

/-- Counterexample to claim C2 as stated: barcode B is in the daily set,
yet a scan of B two seconds after the same device scanned it is classified
as a window duplicate, not a daily duplicate, and neither the device scan
counter nor the total counter is incremented. -/
theorem C2_counterexample :
    ("B".toList) ∈ c2App.todayScanned ∧
    (processScannedData true c2App c2Dev "COM3" ("B".toList) 2).1 =
      ScanOutcome.windowDup ∧
    ((processScannedData true c2App c2Dev "COM3" ("B".toList) 2).2.2).scanCount =
      c2Dev.scanCount ∧
    ((processScannedData true c2App c2Dev "COM3" ("B".toList) 2).2.1).totalScanCount =
      c2App.totalScanCount := by
  decide

theorem autoReconnect_failed_step (t now : Int) (h : 5 ≤ now - t) :
    autoReconnectDevice
        { reconnectAttempts := 0, maxReconnectAttempts := 3,
          lastErrorTime := some t, isConnected := false } now false =
      ({ reconnectAttempts := 0, maxReconnectAttempts := 3,
         lastErrorTime := some now, isConnected := false },
       ReconnResult.retryScheduled) := by
  have h1 : ¬ (now - t < 5) := not_lt.mpr h
  simp [autoReconnectDevice, rateLimitHit, h1, forceDisconnectReset]

/-- Claim C8 (evaluated at the failing input): against a port whose reopen
always fails, with invocations spaced 10 seconds apart, every invocation of
`auto_reconnect_device` schedules a further automatic attempt and leaves
the attempt counter at 0 (because `force_disconnect_device` resets it), so
the cap of 3 attempts is never reached and automatic reconnection never
stops. -/
theorem C8_reconnect_unbounded : ∀ n : Nat,
    (reconnectRun n).1 =
        { reconnectAttempts := 0, maxReconnectAttempts := 3,
          lastErrorTime := some (10 * (n : Int)), isConnected := false }
      ∧ (reconnectRun n).2 = ReconnResult.retryScheduled := by
  intro n
  induction n with
  | zero => constructor <;> decide
  | succ n ih =>
    rw [reconnectRun, ih.1,
      autoReconnect_failed_step (10 * (n : Int)) (10 * ((n : Int) + 1))
        (by omega)]
    have hcast : ((n + 1 : Nat) : Int) = (n : Int) + 1 := by push_cast; ring
    rw [hcast]
    exact ⟨rfl, rfl⟩

/-- Claim C5 counterexample: the record created for the input line 2@LOT-55
has no column named status_2_cleaned at all (the cleaned status is stored
in status_3_cleaned). -/
theorem C5_counterexample_field_name :
    c5s1.store.map (fun r => lookupField r.fields "status_2_cleaned") = [none] ∧
    c5s1.store.map (fun r => lookupField r.fields "status_3_cleaned") =
      [some (Value.vb true)] := by
  decide

/-- Claim C5 (amended): uploading 2@LOT-55 into an empty store creates one
record with status_3_cleaned true and its timestamp; a subsequent upload of
4@LOT-55 updates that same record (same id, still a single record), sets
status_5_partial_out true with its timestamp, and leaves the cleaned pair
untouched. -/
theorem C5_scenario_fields :
    c5s1.store.map (fun r => lookupField r.fields "status_3_cleaned") =
        [some (Value.vb true)] ∧
    c5s1.store.map (fun r => lookupField r.fields "status_3_time") =
        [some (Value.vs "T1")] ∧
    c5s2.store.length = 1 ∧
    c5s2.store.map (fun r => r.rid) = c5s1.store.map (fun r => r.rid) ∧
    c5s2.store.map (fun r => lookupField r.fields "status_5_partial_out") =
        [some (Value.vb true)] ∧
    c5s2.store.map (fun r => lookupField r.fields "status_5_time") =
        [some (Value.vs "T2")] ∧
    c5s2.store.map (fun r => lookupField r.fields "status_3_cleaned") =
        [some (Value.vb true)] ∧
    c5s2.store.map (fun r => lookupField r.fields "status_3_time") =
        [some (Value.vs "T1")] := by
  decide

/-- Claim C6 (evaluated at the failing inputs): when the create POST for
1@X fails with HTTP 500, raises a network exception, or fails with 400 and
the basic retry then fails, `upload_scan_data` returns failure but writes
nothing to the local backlog and nothing to the store, so the failed event
leaves no synced-false local record. -/
theorem C6_failed_upload_no_local_record :
    ((uploadScanData cfgDefault env500 "T1" emptyDB ("1@X".toList) "COM3").1 = false
      ∧ (uploadScanData cfgDefault env500 "T1" emptyDB ("1@X".toList) "COM3").2.localLog = []
      ∧ (uploadScanData cfgDefault env500 "T1" emptyDB ("1@X".toList) "COM3").2.store = [])
  ∧ ((uploadScanData cfgDefault envExn "T1" emptyDB ("1@X".toList) "COM3").1 = false
      ∧ (uploadScanData cfgDefault envExn "T1" emptyDB ("1@X".toList) "COM3").2.localLog = [])
  ∧ ((uploadScanData cfgDefault env400 "T1" emptyDB ("1@X".toList) "COM3").1 = false
      ∧ (uploadScanData cfgDefault env400 "T1" emptyDB ("1@X".toList) "COM3").2.localLog = []) := by
  decide

/-- Claim C1 counterexample: the remote store already holds the row for
LOT-1, yet replaying the unsynced backup line through `sync_local_data`
POSTs a fresh row instead of updating, leaving two records keyed LOT-1. -/
theorem C1_counterexample_sync_duplicates :
    (recordsFor (syncLocalData cfgDefault postOk c1State).1.store
      ("LOT-1".toList)).length = 2 := by
  decide

/-- Claim C9 counterexample: after a sync pass in which the single backlog
entry is confirmed with HTTP 201, the rewritten file still contains that
entry (flagged synced) instead of containing only unconfirmed entries. -/
theorem C9_counterexample_entry_retained :
    (syncJsonlFile postOk c9State).1.localLog =
        [{ sampleEntry with synced := true }] ∧
    (syncJsonlFile postOk c9State).1.localLog ≠ [] := by
  decide

theorem parse_eq_none_of_no_prefix (b : List Char)
    (h : ∀ (i : Fin 6) (rest : List Char), b ≠ statusDigitN i.1 :: '@' :: rest) :
    parseBarcodeStatus b = (b, none) := by
  unfold parseBarcodeStatus
  split
  · exact absurd rfl (h 0 _)
  · exact absurd rfl (h 1 _)
  · exact absurd rfl (h 2 _)
  · exact absurd rfl (h 3 _)
  · exact absurd rfl (h 4 _)
  · exact absurd rfl (h 5 _)
  · rfl

theorem saveToLocal_trace (cfg : DBConfig) (now : String) (s : DBState)
    (bd : List Char) (port : String) :
    ((saveToLocal cfg now s bd port).2).trace = s.trace := by
  unfold saveToLocal; split <;> rfl

theorem saveToLocal_store (cfg : DBConfig) (now : String) (s : DBState)
    (bd : List Char) (port : String) :
    ((saveToLocal cfg now s bd port).2).store = s.store := by
  unfold saveToLocal; split <;> rfl

theorem getExistingRecord_ok (env : NetEnv) (s : DBState) (bd : List Char)
    (h : env.getRes = HttpResult.code 200) :
    getExistingRecord env s bd =
      ((recordsFor s.store bd).head?,
       { s with trace := s.trace ++ [Req.getReq bd] }) := by
  simp [getExistingRecord, h]

theorem getExistingRecord_snd (env : NetEnv) (s : DBState) (bd : List Char) :
    (getExistingRecord env s bd).2 =
      { s with trace := s.trace ++ [Req.getReq bd] } := by
  unfold getExistingRecord; split <;> rfl

theorem createBasicRecord_trace (cfg : DBConfig) (env : NetEnv) (now : String)
    (s : DBState) (bd : List Char) (st : String) (port : String) :
    ∃ ext, ((createBasicRecord cfg env now s bd st port).2).trace = s.trace ++ ext := by
  refine ⟨[Req.postReq [("barcode_data", Value.vcs bd), ("device_port", Value.vs port)]], ?_⟩
  unfold createBasicRecord
  by_cases hp : env.basicPostRes = HttpResult.code 200 ∨ env.basicPostRes = HttpResult.code 201
  · rw [if_pos hp]
    by_cases hb : cfg.localBackupEnabled <;> simp [hb, saveToLocal_trace]
  · rw [if_neg hp]

theorem createNewRecord_trace (cfg : DBConfig) (env : NetEnv) (now : String)
    (s : DBState) (bd : List Char) (st : String) (port : String) :
    ∃ ext, ((createNewRecord cfg env now s bd st port).2).trace = s.trace ++ ext := by
  unfold createNewRecord
  by_cases hp : env.postRes = HttpResult.code 200 ∨ env.postRes = HttpResult.code 201
  · rw [if_pos hp]
    refine ⟨[Req.postReq ([("barcode_data", Value.vcs bd), ("device_port", Value.vs port)]
      ++ statusFieldsFor st now)], ?_⟩
    by_cases hb : cfg.localBackupEnabled <;> simp [hb, saveToLocal_trace]
  · rw [if_neg hp]
    by_cases h4 : env.postRes = HttpResult.code 400
    · rw [if_pos h4]
      obtain ⟨ext, hext⟩ := createBasicRecord_trace cfg env now
        { s with trace := s.trace ++ [Req.postReq ([("barcode_data", Value.vcs bd),
          ("device_port", Value.vs port)] ++ statusFieldsFor st now)] } bd st port
      refine ⟨[Req.postReq ([("barcode_data", Value.vcs bd), ("device_port", Value.vs port)]
        ++ statusFieldsFor st now)] ++ ext, ?_⟩
      rw [hext]
      simp
    · rw [if_neg h4]
      exact ⟨[Req.postReq ([("barcode_data", Value.vcs bd), ("device_port", Value.vs port)]
        ++ statusFieldsFor st now)], rfl⟩

theorem updateExistingRecord_trace (cfg : DBConfig) (env : NetEnv) (now : String)
    (s : DBState) (ex : RemoteRecord) (st : String) (port : String) :
    ∃ ext, ((updateExistingRecord cfg env now s ex st port).2).trace = s.trace ++ ext := by
  refine ⟨[Req.patchReq ex.rid (("device_port", Value.vs port) :: statusFieldsFor st now)], ?_⟩
  unfold updateExistingRecord
  by_cases hp : env.patchRes = HttpResult.code 200 ∨ env.patchRes = HttpResult.code 204
  · rw [if_pos hp]
    by_cases hb : cfg.localBackupEnabled <;> simp [hb, saveToLocal_trace]
  · rw [if_neg hp]

/-- Claim C4: the payload prefix digit 0..5 maps in order to the labels
whose remote columns are named scheduled, cut, cleaned, stored,
partial_out, shipped; the prefix is stripped and the remainder is the
barcode used for the remote lookup; any payload without such a prefix
parses to status none and its online upload returns failure with no state
change and no HTTP request (a local-only warning). -/
theorem C4_status_prefix_protocol :
    (∀ (i : Fin 6) (rest : List Char),
      parseBarcodeStatus (statusDigitN i.1 :: '@' :: rest) =
        (rest, some (statusLabelN i.1)))
  ∧ (∀ i : Fin 6, statusMapping (statusLabelN i.1) = some (statusFieldN i.1))
  ∧ (∀ b : List Char,
      (∀ (i : Fin 6) (rest : List Char), b ≠ statusDigitN i.1 :: '@' :: rest) →
      parseBarcodeStatus b = (b, none))
  ∧ (∀ (cfg : DBConfig) (env : NetEnv) (now : String) (s : DBState)
       (b : List Char) (port : String),
      cfg.apiConfigured = true → cfg.databaseEnabled = true →
      (parseBarcodeStatus b).2 = none →
      uploadScanData cfg env now s b port = (false, s))
  ∧ (∀ (cfg : DBConfig) (env : NetEnv) (now : String) (s : DBState)
       (b clean : List Char) (st : String) (port : String),
      cfg.apiConfigured = true → cfg.databaseEnabled = true →
      parseBarcodeStatus b = (clean, some st) →
      ∃ ext, (uploadScanData cfg env now s b port).2.trace =
        s.trace ++ Req.getReq clean :: ext) := by
  refine ⟨?_, ?_, ?_, ?_, ?_⟩
  · intro i rest; fin_cases i <;> rfl
  · intro i; fin_cases i <;> rfl
  · exact parse_eq_none_of_no_prefix
  · intro cfg env now s b port h1 h2 h3
    obtain ⟨c, hc⟩ : ∃ c, parseBarcodeStatus b = (c, none) :=
      ⟨(parseBarcodeStatus b).1, by rw [← h3]⟩
    simp [uploadScanData, h1, h2, hc]
  · intro cfg env now s b clean st port h1 h2 hparse
    rcases hge : getExistingRecord env s clean with ⟨ores, s1⟩
    have hs1 : s1 = { s with trace := s.trace ++ [Req.getReq clean] } := by
      rw [← getExistingRecord_snd env s clean, hge]
    cases ores with
    | none =>
      have hup : uploadScanData cfg env now s b port =
          createNewRecord cfg env now s1 clean st port := by
        simp [uploadScanData, h1, h2, hparse, hge]
      obtain ⟨ext, hext⟩ := createNewRecord_trace cfg env now s1 clean st port
      refine ⟨ext, ?_⟩
      rw [hup, hext, hs1]
      simp
    | some r =>
      have hup : uploadScanData cfg env now s b port =
          updateExistingRecord cfg env now s1 r st port := by
        simp [uploadScanData, h1, h2, hparse, hge]
      obtain ⟨ext, hext⟩ := updateExistingRecord_trace cfg env now s1 r st port
      refine ⟨ext, ?_⟩
      rw [hup, hext, hs1]
      simp

/-- Witness for C4: the prefix 2 parses to the cleaned label with the
status_3_cleaned column, the unprefixed payload LOT-9 parses to none and
its online upload is a no-op failure, and the upload of 2@LOT-55 issues its
lookup for the stripped barcode LOT-55. -/
theorem C4_witness :
    parseBarcodeStatus (statusDigitN (2 : Fin 6).1 :: '@' :: "LOT-55".toList) =
        ("LOT-55".toList, some (statusLabelN (2 : Fin 6).1)) ∧
    statusMapping (statusLabelN (2 : Fin 6).1) = some (statusFieldN (2 : Fin 6).1) ∧
    parseBarcodeStatus ("LOT-9".toList) = ("LOT-9".toList, none) ∧
    uploadScanData cfgDefault envAllOk "T1" emptyDB ("LOT-9".toList) "COM3" =
      (false, emptyDB) ∧
    ∃ ext, (uploadScanData cfgDefault envAllOk "T1" emptyDB ("2@LOT-55".toList) "COM3").2.trace =
      emptyDB.trace ++ Req.getReq ("LOT-55".toList) :: ext :=
  ⟨C4_status_prefix_protocol.1 2 ("LOT-55".toList),
   C4_status_prefix_protocol.2.1 2,
   C4_status_prefix_protocol.2.2.1 ("LOT-9".toList) (by
     intro i rest h
     have hL : "LOT-9".toList = ['L', 'O', 'T', '-', '9'] := rfl
     rw [hL] at h
     fin_cases i <;> simp at h),
   C4_status_prefix_protocol.2.2.2.1 cfgDefault envAllOk "T1" emptyDB
     ("LOT-9".toList) "COM3" rfl rfl (by decide),
   C4_status_prefix_protocol.2.2.2.2 cfgDefault envAllOk "T1" emptyDB
     ("2@LOT-55".toList) ("LOT-55".toList) "已清角" "COM3" rfl rfl (by decide)⟩

theorem createNewRecord_ok (cfg : DBConfig) (env : NetEnv) (now : String)
    (s : DBState) (bd : List Char) (st : String) (port : String)
    (h : env.postRes = HttpResult.code 200 ∨ env.postRes = HttpResult.code 201) :
    (createNewRecord cfg env now s bd st port).1 = true ∧
    (createNewRecord cfg env now s bd st port).2.store =
      s.store ++ [newRecordOf s.nextId bd port st now] := by
  unfold createNewRecord
  rw [if_pos h]
  by_cases hb : cfg.localBackupEnabled <;> simp [hb, saveToLocal_store]

theorem updateExistingRecord_ok (cfg : DBConfig) (env : NetEnv) (now : String)
    (s : DBState) (ex : RemoteRecord) (st : String) (port : String)
    (h : env.patchRes = HttpResult.code 200 ∨ env.patchRes = HttpResult.code 204) :
    (updateExistingRecord cfg env now s ex st port).1 = true ∧
    (updateExistingRecord cfg env now s ex st port).2.store =
      s.store.map (fun r => if r.rid = ex.rid then applyUpdate r port st now else r) := by
  unfold updateExistingRecord
  rw [if_pos h]
  by_cases hb : cfg.localBackupEnabled <;> simp [hb, saveToLocal_store]

theorem recordsFor_append (l m : List RemoteRecord) (bd : List Char) :
    recordsFor (l ++ m) bd = recordsFor l bd ++ recordsFor m bd := by
  simp [recordsFor, List.filter_append]

theorem recordsFor_map_length (l : List RemoteRecord)
    (f : RemoteRecord → RemoteRecord) (bd : List Char)
    (hf : ∀ r, (f r).barcodeData = r.barcodeData) :
    (recordsFor (l.map f) bd).length = (recordsFor l bd).length := by
  induction l with
  | nil => rfl
  | cons r l ih =>
    unfold recordsFor at ih ⊢
    simp only [List.map_cons, List.filter_cons, hf r]
    cases hc : (r.barcodeData == bd) <;> simp [hc, ih]

/-- Claim C1 (amended): the live upload path is idempotent per barcode —
starting from a store with no row for the barcode, two successful uploads
of the same prefixed payload leave exactly one row for that barcode (the
first creates it, the second updates it in place). -/
theorem C1_upload_idempotent_live (cfg : DBConfig) (env1 env2 : NetEnv)
    (now1 now2 : String) (s : DBState) (raw clean : List Char) (st : String)
    (port : String)
    (hapi : cfg.apiConfigured = true) (hdb : cfg.databaseEnabled = true)
    (hparse : parseBarcodeStatus raw = (clean, some st))
    (hget1 : env1.getRes = HttpResult.code 200)
    (hpost1 : env1.postRes = HttpResult.code 201)
    (hget2 : env2.getRes = HttpResult.code 200)
    (hpatch2 : env2.patchRes = HttpResult.code 204)
    (hnone : recordsFor s.store clean = []) :
    (uploadScanData cfg env1 now1 s raw port).1 = true ∧
    (uploadScanData cfg env2 now2 (uploadScanData cfg env1 now1 s raw port).2 raw port).1 = true ∧
    (recordsFor (uploadScanData cfg env2 now2
        (uploadScanData cfg env1 now1 s raw port).2 raw port).2.store clean).length = 1 := by
  have e1 : uploadScanData cfg env1 now1 s raw port =
      createNewRecord cfg env1 now1
        { s with trace := s.trace ++ [Req.getReq clean] } clean st port := by
    simp [uploadScanData, hapi, hdb, hparse,
      getExistingRecord_ok env1 s clean hget1, hnone]
  obtain ⟨hok1, hstore1⟩ := createNewRecord_ok cfg env1 now1
    { s with trace := s.trace ++ [Req.getReq clean] } clean st port (Or.inr hpost1)
  set S1 : DBState := (uploadScanData cfg env1 now1 s raw port).2 with hS1
  have hstore1' : S1.store = s.store ++ [newRecordOf s.nextId clean port st now1] := by
    rw [hS1, e1]; exact hstore1
  have hrec1 : recordsFor S1.store clean =
      [newRecordOf s.nextId clean port st now1] := by
    rw [hstore1', recordsFor_append, hnone]
    simp [recordsFor, newRecordOf]
  have e2 : uploadScanData cfg env2 now2 S1 raw port =
      updateExistingRecord cfg env2 now2
        { S1 with trace := S1.trace ++ [Req.getReq clean] }
        (newRecordOf s.nextId clean port st now1) st port := by
    simp [uploadScanData, hapi, hdb, hparse,
      getExistingRecord_ok env2 S1 clean hget2, hrec1]
  obtain ⟨hok2, hstore2⟩ := updateExistingRecord_ok cfg env2 now2
    { S1 with trace := S1.trace ++ [Req.getReq clean] }
    (newRecordOf s.nextId clean port st now1) st port (Or.inr hpatch2)
  have hf : ∀ r : RemoteRecord,
      ((fun r => if r.rid = (newRecordOf s.nextId clean port st now1).rid
          then applyUpdate r port st now2 else r) r).barcodeData = r.barcodeData := by
    intro r
    by_cases hr : r.rid = (newRecordOf s.nextId clean port st now1).rid <;>
      simp [hr, applyUpdate]
  refine ⟨by rw [e1]; exact hok1, by rw [e2]; exact hok2, ?_⟩
  rw [e2, hstore2]
  rw [recordsFor_map_length _ _ _ hf]
  simp [hrec1]

/-- Witness for C1 (amended): uploading 1@LOT-1 twice into an empty store
with both requests succeeding leaves exactly one record for LOT-1. -/
theorem C1_witness :
    cfgDefault.apiConfigured = true ∧
    parseBarcodeStatus ("1@LOT-1".toList) = ("LOT-1".toList, some "已切割") ∧
    recordsFor emptyDB.store ("LOT-1".toList) = [] ∧
    (recordsFor (uploadScanData cfgDefault envAllOk "T2"
        (uploadScanData cfgDefault envAllOk "T1" emptyDB ("1@LOT-1".toList) "COM3").2
        ("1@LOT-1".toList) "COM3").2.store ("LOT-1".toList)).length = 1 :=
  ⟨rfl, by decide, rfl,
   (C1_upload_idempotent_live cfgDefault envAllOk envAllOk "T1" "T2" emptyDB
      ("1@LOT-1".toList) ("LOT-1".toList) "已切割" "COM3"
      rfl rfl (by decide) rfl rfl rfl rfl rfl).2.2⟩

theorem saveToLocal_enabled (cfg : DBConfig) (now : String) (s : DBState)
    (bd : List Char) (port : String) (hb : cfg.localBackupEnabled = true) :
    (saveToLocal cfg now s bd port).2.localLog = s.localLog ++
      [{ barcodeData := (parseBarcodeStatus bd).1, scanTime := now,
         devicePort := port, status := (parseBarcodeStatus bd).2,
         synced := false }] := by
  unfold saveToLocal
  rw [if_neg (by simp [hb])]

theorem syncFold_outLog_spec (post : Nat → HttpResult) :
    ∀ (log : List LocalRecord) (acc : SyncAcc),
      (log.foldl (syncStep post) acc).outLog =
        acc.outLog ++ syncSpecLog post acc.reqIx log := by
  intro log
  induction log with
  | nil => intro acc; simp [syncSpecLog]
  | cons r rs ih =>
    intro acc
    rw [List.foldl_cons, ih]
    by_cases hs : r.synced = true
    · have h1 : (syncStep post acc r).outLog = acc.outLog ++ [r] := by
        simp [syncStep, hs]
      have h2 : (syncStep post acc r).reqIx = acc.reqIx := by
        simp [syncStep, hs]
      rw [h1, h2]
      simp [syncSpecLog, hs]
    · by_cases hp : post acc.reqIx = HttpResult.code 200 ∨ post acc.reqIx = HttpResult.code 201
      · have h1 : (syncStep post acc r).outLog =
            acc.outLog ++ [{ r with synced := true }] := by
          simp [syncStep, hs, hp]
        have h2 : (syncStep post acc r).reqIx = acc.reqIx + 1 := by
          simp [syncStep, hs, hp]
        rw [h1, h2]
        simp [syncSpecLog, hs, hp]
      · have h1 : (syncStep post acc r).outLog = acc.outLog ++ [r] := by
          simp [syncStep, hs, hp]
        have h2 : (syncStep post acc r).reqIx = acc.reqIx + 1 := by
          simp [syncStep, hs, hp]
        rw [h1, h2]
        simp [syncSpecLog, hs, hp]

theorem syncSpecLog_length (post : Nat → HttpResult) :
    ∀ (log : List LocalRecord) (k : Nat),
      (syncSpecLog post k log).length = log.length := by
  intro log
  induction log with
  | nil => intro k; rfl
  | cons r rs ih =>
    intro k
    unfold syncSpecLog
    by_cases hs : r.synced = true
    · rw [if_pos hs]
      simp [ih]
    · rw [if_neg hs]
      by_cases hp : post k = HttpResult.code 200 ∨ post k = HttpResult.code 201
      · rw [if_pos hp]
        simp [ih]
      · rw [if_neg hp]
        simp [ih]

theorem syncSpecLog_allFail (post : Nat → HttpResult)
    (hfail : ∀ j : Nat, ¬(post j = HttpResult.code 200 ∨ post j = HttpResult.code 201)) :
    ∀ (log : List LocalRecord) (k : Nat), syncSpecLog post k log = log := by
  intro log
  induction log with
  | nil => intro k; rfl
  | cons r rs ih =>
    intro k
    unfold syncSpecLog
    by_cases hs : r.synced = true
    · rw [if_pos hs, ih]
    · rw [if_neg hs, if_neg (hfail k), ih]

theorem syncStep_trace (post : Nat → HttpResult) (acc : SyncAcc) (r : LocalRecord) :
    (syncStep post acc r).st.trace = acc.st.trace ∨
    (syncStep post acc r).st.trace =
      acc.st.trace ++ [Req.postReq (mkSyncPayload r)] := by
  unfold syncStep
  by_cases hs : r.synced = true
  · left; simp [hs]
  · by_cases hp : post acc.reqIx = HttpResult.code 200 ∨ post acc.reqIx = HttpResult.code 201 <;>
      right <;> simp [hs, hp]

theorem syncFold_trace_mono (post : Nat → HttpResult) :
    ∀ (log : List LocalRecord) (acc : SyncAcc) (q : Req),
      q ∈ acc.st.trace → q ∈ (log.foldl (syncStep post) acc).st.trace := by
  intro log
  induction log with
  | nil => intro acc q h; simpa using h
  | cons r log ih =>
    intro acc q h
    rw [List.foldl_cons]
    apply ih
    rcases syncStep_trace post acc r with he | he <;> rw [he]
    · exact h
    · exact List.mem_append_left _ h

theorem syncStep_trace_unsynced (post : Nat → HttpResult) (acc : SyncAcc)
    (r : LocalRecord) (h : r.synced = false) :
    (syncStep post acc r).st.trace =
      acc.st.trace ++ [Req.postReq (mkSyncPayload r)] := by
  unfold syncStep
  rw [if_neg (by simp [h])]
  by_cases hp : post acc.reqIx = HttpResult.code 200 ∨ post acc.reqIx = HttpResult.code 201 <;>
    simp [hp]

theorem syncFold_posts (post : Nat → HttpResult) :
    ∀ (log : List LocalRecord) (acc : SyncAcc) (r : LocalRecord),
      r ∈ log → r.synced = false →
      Req.postReq (mkSyncPayload r) ∈ (log.foldl (syncStep post) acc).st.trace := by
  intro log
  induction log with
  | nil => intro acc r h; simp at h
  | cons a log ih =>
    intro acc r hmem hsync
    rw [List.foldl_cons]
    rcases List.mem_cons.mp hmem with rfl | hmem'
    · apply syncFold_trace_mono
      rw [syncStep_trace_unsynced post acc r hsync]
      exact List.mem_append_right _ (List.mem_singleton.mpr rfl)
    · exact ih _ r hmem' hsync

theorem syncStep_synced (post : Nat → HttpResult) (acc : SyncAcc)
    (r : LocalRecord) (h : r.synced = true) :
    (syncStep post acc r).st = acc.st ∧
    (syncStep post acc r).uploaded = acc.uploaded := by
  unfold syncStep
  rw [if_pos (by simp [h])]
  exact ⟨rfl, rfl⟩

theorem syncFold_allSynced (post : Nat → HttpResult) :
    ∀ (log : List LocalRecord) (acc : SyncAcc),
      (∀ r ∈ log, r.synced = true) →
      (log.foldl (syncStep post) acc).st = acc.st ∧
      (log.foldl (syncStep post) acc).uploaded = acc.uploaded := by
  intro log
  induction log with
  | nil => intro acc _; exact ⟨rfl, rfl⟩
  | cons r log ih =>
    intro acc h
    rw [List.foldl_cons]
    obtain ⟨h1, h2⟩ := syncStep_synced post acc r (h r (List.mem_cons_self r log))
    obtain ⟨h3, h4⟩ := ih (syncStep post acc r)
      (fun x hx => h x (List.mem_cons_of_mem r hx))
    exact ⟨h3.trans h1, h4.trans h2⟩

/-- Claim C9 (amended): a backlog sync pass rewrites each file with exactly
`syncSpecLog`: every entry is retained in order (same length), an entry
already marked synced is kept as it is, an unsynced entry whose own POST is
confirmed by the remote (HTTP 200 or 201) is rewritten with synced=true,
and an unsynced entry whose POST is not confirmed is retained unchanged
with synced=false for retry — in particular, when every POST fails the file
is byte-for-byte unchanged; and a file whose entries are all marked issues
no request and uploads nothing on the next pass. -/
theorem C9_sync_marks_not_removes :
    (∀ (post : Nat → HttpResult) (s : DBState),
      (syncJsonlFile post s).1.localLog = syncSpecLog post 0 s.localLog)
  ∧ (∀ (post : Nat → HttpResult) (k : Nat) (log : List LocalRecord),
      (syncSpecLog post k log).length = log.length)
  ∧ (∀ (post : Nat → HttpResult) (k : Nat) (log : List LocalRecord),
      (∀ j : Nat, ¬(post j = HttpResult.code 200 ∨ post j = HttpResult.code 201)) →
      syncSpecLog post k log = log)
  ∧ (∀ (post : Nat → HttpResult) (s : DBState),
      (∀ r ∈ s.localLog, r.synced = true) →
      (syncJsonlFile post s).1.trace = s.trace ∧ (syncJsonlFile post s).2 = 0) := by
  refine ⟨?_, fun post k log => syncSpecLog_length post log k, ?_, ?_⟩
  · intro post s
    have h := syncFold_outLog_spec post s.localLog
      { st := { s with localLog := [] }, reqIx := 0, uploaded := 0, outLog := [] }
    simp [syncJsonlFile]
    rw [h]
    simp
  · intro post k log hfail
    exact syncSpecLog_allFail post hfail log k
  · intro post s h
    obtain ⟨h1, h2⟩ := syncFold_allSynced post s.localLog
      { st := { s with localLog := [] }, reqIx := 0, uploaded := 0, outLog := [] } h
    constructor
    · simp [syncJsonlFile]
      rw [h1]
    · simp [syncJsonlFile]
      rw [h2]

/-- Witness for C9 (amended): after a pass over a file with one unsynced
entry and one confirmed POST, the file is exactly the entry marked synced;
a pass in which every POST fails leaves the file unchanged (the entry is
retained with synced=false); and a pass over a file whose single entry is
already marked issues no request and uploads nothing. -/
theorem C9_witness :
    (syncJsonlFile postOk c9State).1.localLog = syncSpecLog postOk 0 c9State.localLog ∧
    syncSpecLog postOk 0 c9State.localLog = [{ sampleEntry with synced := true }] ∧
    (syncJsonlFile postFail c9State).1.localLog = syncSpecLog postFail 0 c9State.localLog ∧
    syncSpecLog postFail 0 c9State.localLog = c9State.localLog ∧
    (syncJsonlFile postOk c9AllSynced).1.trace = c9AllSynced.trace ∧
    (syncJsonlFile postOk c9AllSynced).2 = 0 :=
  ⟨C9_sync_marks_not_removes.1 postOk c9State,
   by decide,
   C9_sync_marks_not_removes.1 postFail c9State,
   C9_sync_marks_not_removes.2.2.1 postFail 0 c9State.localLog
     (by intro j; simp [postFail]),
   (C9_sync_marks_not_removes.2.2.2 postOk c9AllSynced (by decide)).1,
   (C9_sync_marks_not_removes.2.2.2 postOk c9AllSynced (by decide)).2⟩

/-- Claim C10: every record `_save_to_local` appends carries synced=false —
in particular the backup lines written right after a successful remote
create and after a successful update — and a later sync pass POSTs every
synced=false backlog record to the remote store again, re-sending events
whose original upload already succeeded. -/
theorem C10_backup_unsynced_resent :
    (∀ (cfg : DBConfig) (now : String) (s : DBState) (bd : List Char)
       (port : String) (r : LocalRecord),
       r ∈ (saveToLocal cfg now s bd port).2.localLog →
       r ∈ s.localLog ∨ r.synced = false)
  ∧ (∀ (cfg : DBConfig) (env : NetEnv) (now : String) (s : DBState)
       (bd : List Char) (st : String) (port : String),
       cfg.localBackupEnabled = true →
       (env.postRes = HttpResult.code 200 ∨ env.postRes = HttpResult.code 201) →
       ∃ rec, (createNewRecord cfg env now s bd st port).2.localLog =
          s.localLog ++ [rec] ∧ rec.synced = false)
  ∧ (∀ (cfg : DBConfig) (env : NetEnv) (now : String) (s : DBState)
       (ex : RemoteRecord) (st : String) (port : String),
       cfg.localBackupEnabled = true →
       (env.patchRes = HttpResult.code 200 ∨ env.patchRes = HttpResult.code 204) →
       ∃ rec, (updateExistingRecord cfg env now s ex st port).2.localLog =
          s.localLog ++ [rec] ∧ rec.synced = false)
  ∧ (∀ (post : Nat → HttpResult) (s : DBState) (r : LocalRecord),
       r ∈ s.localLog → r.synced = false →
       Req.postReq (mkSyncPayload r) ∈ (syncJsonlFile post s).1.trace) := by
  refine ⟨?_, ?_, ?_, ?_⟩
  · intro cfg now s bd port r hr
    unfold saveToLocal at hr
    by_cases hb : cfg.localBackupEnabled = false
    · rw [if_pos hb] at hr
      exact Or.inl hr
    · rw [if_neg hb] at hr
      simp only at hr
      rcases List.mem_append.mp hr with h | h
      · exact Or.inl h
      · right
        rw [List.mem_singleton.mp h]
  · intro cfg env now s bd st port hb hp
    refine ⟨{ barcodeData := (parseBarcodeStatus (statusPrefixChars st ++ '@' :: bd)).1,
              scanTime := now, devicePort := port,
              status := (parseBarcodeStatus (statusPrefixChars st ++ '@' :: bd)).2,
              synced := false }, ?_, rfl⟩
    unfold createNewRecord
    rw [if_pos hp]
    simp [hb, saveToLocal_enabled]
  · intro cfg env now s ex st port hb hp
    refine ⟨{ barcodeData := (parseBarcodeStatus (statusPrefixChars st ++ '@' :: ex.barcodeData)).1,
              scanTime := now, devicePort := port,
              status := (parseBarcodeStatus (statusPrefixChars st ++ '@' :: ex.barcodeData)).2,
              synced := false }, ?_, rfl⟩
    unfold updateExistingRecord
    rw [if_pos hp]
    simp [hb, saveToLocal_enabled]
  · intro post s r hmem hsync
    have := syncFold_posts post s.localLog
      { st := { s with localLog := [] }, reqIx := 0, uploaded := 0, outLog := [] }
      r hmem hsync
    simpa [syncJsonlFile] using this

/-- Witness for C10: the backup line for LOT-1 has synced=false, and the
next sync pass POSTs it even though its original upload succeeded. -/
theorem C10_witness :
    cfgDefault.localBackupEnabled = true ∧
    sampleEntry ∈ c9State.localLog ∧
    sampleEntry.synced = false ∧
    Req.postReq (mkSyncPayload sampleEntry) ∈ (syncJsonlFile postOk c9State).1.trace :=
  ⟨rfl, by decide, rfl,
   C10_backup_unsynced_resent.2.2.2 postOk c9State sampleEntry (by decide) rfl⟩

theorem matchesAt_eq (pat : List Char) :
    ∀ l : List Char, matchesAt pat l = true → l = pat ++ l.drop pat.length := by
  induction pat with
  | nil => intro l _; simp
  | cons p ps ih =>
    intro l h
    cases l with
    | nil => simp [matchesAt] at h
    | cons c cs =>
      simp only [matchesAt, Bool.and_eq_true, beq_iff_eq] at h
      obtain ⟨hpc, hrec⟩ := h
      subst hpc
      simp only [List.length_cons, List.drop_succ_cons, List.cons_append]
      exact congrArg (p :: ·) (ih cs hrec)

theorem splitOnceAux_eq (pat : List Char) :
    ∀ (b pre post : List Char), splitOnceAux pat b = some (pre, post) →
      b = pre ++ pat ++ post := by
  intro b
  induction b with
  | nil => intro pre post h; simp [splitOnceAux] at h
  | cons c rest ih =>
    intro pre post h
    unfold splitOnceAux at h
    by_cases hm : matchesAt pat (c :: rest) = true
    · rw [if_pos hm] at h
      injection h with h'
      injection h' with h1 h2
      subst h1
      subst h2
      simpa using matchesAt_eq pat (c :: rest) hm
    · rw [if_neg hm] at h
      cases hs : splitOnceAux pat rest with
      | none => rw [hs] at h; simp at h
      | some p =>
        rcases p with ⟨pre', post'⟩
        rw [hs] at h
        injection h with h'
        injection h' with h1 h2
        subst h1
        subst h2
        have := ih pre' post' hs
        simp [this]

theorem splitOnceAux_isSome_of_mem (c0 : Char) :
    ∀ b : List Char, c0 ∈ b → (splitOnceAux [c0] b).isSome := by
  intro b
  induction b with
  | nil => intro h; simp at h
  | cons c rest ih =>
    intro h
    unfold splitOnceAux
    by_cases hm : matchesAt [c0] (c :: rest) = true
    · rw [if_pos hm]; rfl
    · rw [if_neg hm]
      have hc : c0 ≠ c := by
        intro he
        exact hm (by simp [matchesAt, he])
      have hrest : c0 ∈ rest := by
        rcases List.mem_cons.mp h with h1 | h1
        · exact absurd h1 hc
        · exact h1
      have hi := ih hrest
      cases hs : splitOnceAux [c0] rest with
      | none => rw [hs] at hi; simp at hi
      | some p =>
        rcases p with ⟨pre, post⟩
        rfl

theorem takeLine_shrink (b line rest : List Char)
    (h : takeLine b = some (line, rest)) : rest.length < b.length := by
  unfold takeLine at h
  cases h1 : splitOnceAux crlfSep b with
  | some p =>
    rw [h1] at h
    injection h with h'
    subst h'
    have := splitOnceAux_eq crlfSep b line rest h1
    rw [this]
    simp [crlfSep]
    omega
  | none =>
    rw [h1] at h
    cases h2 : splitOnceAux lfSep b with
    | some p =>
      rw [h2] at h
      injection h with h'
      subst h'
      have := splitOnceAux_eq lfSep b line rest h2
      rw [this]
      simp [lfSep]
      omega
    | none =>
      rw [h2] at h
      have := splitOnceAux_eq crSep b line rest h
      rw [this]
      simp [crSep]
      omega

theorem takeLine_isSome (b : List Char) (h : '\n' ∈ b ∨ '\r' ∈ b) :
    (takeLine b).isSome := by
  unfold takeLine
  cases h1 : splitOnceAux crlfSep b with
  | some p => rfl
  | none =>
    cases h2 : splitOnceAux lfSep b with
    | some p => rfl
    | none =>
      rcases h with h | h
      · have := splitOnceAux_isSome_of_mem '\n' b h
        rw [show splitOnceAux ['\n'] b = splitOnceAux lfSep b from rfl, h2] at this
        simp at this
      · show (splitOnceAux crSep b).isSome = true
        exact splitOnceAux_isSome_of_mem '\r' b h

theorem processBufferFuel_congr :
    ∀ (f1 f2 : Nat) (b : List Char), b.length ≤ f1 → b.length ≤ f2 →
      processBufferFuel f1 b = processBufferFuel f2 b := by
  intro f1
  induction f1 using Nat.strong_induction_on with
  | _ f1 ih =>
    intro f2 b h1 h2
    cases f1 with
    | zero =>
      have hb : b = [] := List.length_eq_zero.mp (Nat.le_zero.mp h1)
      subst hb
      cases f2 <;> simp [processBufferFuel]
    | succ f1 =>
      cases f2 with
      | zero =>
        have hb : b = [] := List.length_eq_zero.mp (Nat.le_zero.mp h2)
        subst hb
        simp [processBufferFuel]
      | succ f2 =>
        simp only [processBufferFuel]
        by_cases hc : ('\n' ∈ b) ∨ ('\r' ∈ b)
        · rw [if_pos hc, if_pos hc]
          cases ht : takeLine b with
          | none => rfl
          | some p =>
            rcases p with ⟨line, rest⟩
            have hlt := takeLine_shrink b line rest ht
            have e := ih f1 (Nat.lt_succ_self f1) f2 rest (by omega) (by omega)
            simp only [e]
        · rw [if_neg hc, if_neg hc]

theorem processBuffer_eq (b : List Char) :
    processBuffer b =
      if ('\n' ∈ b) ∨ ('\r' ∈ b) then
        match takeLine b with
        | some (line, rest) =>
          ((if pyStrip line = [] then (processBuffer rest).1
            else pyStrip line :: (processBuffer rest).1), (processBuffer rest).2)
        | none => ([], b)
      else ([], b) := by
  cases b with
  | nil => simp [processBuffer, processBufferFuel]
  | cons c cs =>
    unfold processBuffer
    simp only [List.length_cons]
    simp only [processBufferFuel]
    by_cases hc : ('\n' ∈ c :: cs) ∨ ('\r' ∈ c :: cs)
    · rw [if_pos hc, if_pos hc]
      cases ht : takeLine (c :: cs) with
      | none => rfl
      | some p =>
        rcases p with ⟨line, rest⟩
        have hlt := takeLine_shrink (c :: cs) line rest ht
        have e := processBufferFuel_congr cs.length rest.length rest
          (by simp at hlt; omega) (le_refl _)
        simp only [processBuffer, e]
    · rw [if_neg hc, if_neg hc]

theorem processBuffer_no_sep_aux : ∀ (n : Nat) (b : List Char), b.length = n →
    '\n' ∉ (processBuffer b).2 ∧ '\r' ∉ (processBuffer b).2 := by
  intro n
  induction n using Nat.strong_induction_on with
  | _ n ih =>
    intro b hb
    rw [processBuffer_eq]
    by_cases hc : ('\n' ∈ b) ∨ ('\r' ∈ b)
    · rw [if_pos hc]
      cases ht : takeLine b with
      | none =>
        have := takeLine_isSome b hc
        rw [ht] at this
        simp at this
      | some p =>
        rcases p with ⟨line, rest⟩
        have hlt := takeLine_shrink b line rest ht
        have h := ih rest.length (hb ▸ hlt) rest rfl
        simpa using h
    · rw [if_neg hc]
      push_neg at hc
      simpa using hc

theorem processBuffer_lines_aux : ∀ (n : Nat) (b : List Char), b.length = n →
    ∀ l ∈ (processBuffer b).1, l ≠ [] ∧ ∃ raw, l = pyStrip raw := by
  intro n
  induction n using Nat.strong_induction_on with
  | _ n ih =>
    intro b hb l hl
    rw [processBuffer_eq] at hl
    by_cases hc : ('\n' ∈ b) ∨ ('\r' ∈ b)
    · rw [if_pos hc] at hl
      cases ht : takeLine b with
      | none =>
        have := takeLine_isSome b hc
        rw [ht] at this
        simp at this
      | some p =>
        rcases p with ⟨line, rest⟩
        rw [ht] at hl
        simp only at hl
        have hlt := takeLine_shrink b line rest ht
        by_cases hst : pyStrip line = []
        · rw [if_pos hst] at hl
          exact ih rest.length (hb ▸ hlt) rest rfl l hl
        · rw [if_neg hst] at hl
          rcases List.mem_cons.mp hl with rfl | hl'
          · exact ⟨hst, line, rfl⟩
          · exact ih rest.length (hb ▸ hlt) rest rfl l hl'
    · rw [if_neg hc] at hl
      simp at hl

theorem processBuffer_step_crlf (b pre post : List Char)
    (h : splitOnceAux crlfSep b = some (pre, post)) :
    processBuffer b =
      ((if pyStrip pre = [] then (processBuffer post).1
        else pyStrip pre :: (processBuffer post).1), (processBuffer post).2) := by
  have hmem : '\n' ∈ b := by
    rw [splitOnceAux_eq crlfSep b pre post h]
    simp [crlfSep]
  have ht : takeLine b = some (pre, post) := by
    unfold takeLine
    rw [h]
  rw [processBuffer_eq, if_pos (Or.inl hmem), ht]

theorem processBuffer_step_lf (b pre post : List Char)
    (hn : splitOnceAux crlfSep b = none)
    (h : splitOnceAux lfSep b = some (pre, post)) :
    processBuffer b =
      ((if pyStrip pre = [] then (processBuffer post).1
        else pyStrip pre :: (processBuffer post).1), (processBuffer post).2) := by
  have hmem : '\n' ∈ b := by
    rw [splitOnceAux_eq lfSep b pre post h]
    simp [lfSep]
  have ht : takeLine b = some (pre, post) := by
    unfold takeLine
    rw [hn, h]
  rw [processBuffer_eq, if_pos (Or.inl hmem), ht]

theorem processBuffer_step_cr (b pre post : List Char)
    (hn1 : splitOnceAux crlfSep b = none)
    (hn2 : splitOnceAux lfSep b = none)
    (h : splitOnceAux crSep b = some (pre, post)) :
    processBuffer b =
      ((if pyStrip pre = [] then (processBuffer post).1
        else pyStrip pre :: (processBuffer post).1), (processBuffer post).2) := by
  have hmem : '\r' ∈ b := by
    rw [splitOnceAux_eq crSep b pre post h]
    simp [crSep]
  have ht : takeLine b = some (pre, post) := by
    unfold takeLine
    rw [hn1, hn2, h]
  rw [processBuffer_eq, if_pos (Or.inr hmem), ht]

/-- Claim C7 (amended): the framing loop splits off a line at the first
occurrence of carriage-return-line-feed whenever that two-character
separator occurs anywhere in the buffer, otherwise at the first line feed,
otherwise at the first carriage return; the leftover buffer never contains
a separator and a buffer without separators passes through untouched
(trailing partial line preserved across reads); and every emitted line is a
trimmed, non-empty line (empty lines after trimming are discarded
silently). -/
theorem C7_framing_priority :
    (∀ b : List Char, '\n' ∉ (processBuffer b).2 ∧ '\r' ∉ (processBuffer b).2)
  ∧ (∀ b : List Char, '\n' ∉ b → '\r' ∉ b → processBuffer b = ([], b))
  ∧ (∀ (b l : List Char), l ∈ (processBuffer b).1 →
       l ≠ [] ∧ ∃ raw, l = pyStrip raw)
  ∧ (∀ b pre post : List Char, splitOnceAux crlfSep b = some (pre, post) →
       processBuffer b =
         ((if pyStrip pre = [] then (processBuffer post).1
           else pyStrip pre :: (processBuffer post).1), (processBuffer post).2))
  ∧ (∀ b pre post : List Char, splitOnceAux crlfSep b = none →
       splitOnceAux lfSep b = some (pre, post) →
       processBuffer b =
         ((if pyStrip pre = [] then (processBuffer post).1
           else pyStrip pre :: (processBuffer post).1), (processBuffer post).2))
  ∧ (∀ b pre post : List Char, splitOnceAux crlfSep b = none →
       splitOnceAux lfSep b = none →
       splitOnceAux crSep b = some (pre, post) →
       processBuffer b =
         ((if pyStrip pre = [] then (processBuffer post).1
           else pyStrip pre :: (processBuffer post).1), (processBuffer post).2)) := by
  refine ⟨fun b => processBuffer_no_sep_aux b.length b rfl, ?_,
          fun b l => processBuffer_lines_aux b.length b rfl l,
          processBuffer_step_crlf, processBuffer_step_lf, processBuffer_step_cr⟩
  intro b h1 h2
  rw [processBuffer_eq, if_neg (by simp [h1, h2])]

/-- Witness for C7 (amended): a buffer with no separator passes through
unchanged, and the buffer X-CRLF-Y is split at the CRLF, emitting X and
keeping the partial line Y. -/
theorem C7_witness :
    processBuffer ("AB".toList) = ([], "AB".toList) ∧
    processBuffer ("X\r\nY".toList) =
      ((if pyStrip ("X".toList) = [] then (processBuffer ("Y".toList)).1
        else pyStrip ("X".toList) :: (processBuffer ("Y".toList)).1),
       (processBuffer ("Y".toList)).2) :=
  ⟨C7_framing_priority.2.1 ("AB".toList) (by decide) (by decide),
   C7_framing_priority.2.2.2.1 ("X\r\nY".toList) ("X".toList) ("Y".toList) (by decide)⟩

/-- Claim C7 counterexample: in the buffer A-CR-B-CRLF-C the first
separator occurrence is at position 1, so splitting there would emit the
line A; the code instead prioritizes the CRLF at position 3 and emits
A-CR-B, so framing does not split at the first occurrence of any
separator. -/
theorem C7_counterexample_first_occurrence :
    firstSepPos ("A\rB\r\nC".toList) = some 1 ∧
    (processBuffer ("A\rB\r\nC".toList)).1 = ["A\rB".toList] ∧
    (processBuffer ("A\rB\r\nC".toList)).2 = "C".toList ∧
    "A\rB".toList ≠ ("A\rB\r\nC".toList).take 1 := by
  decide

end Bar
